import Mathlib

/-!
Verification of the per-connection REST state machine and the asynchronous
RPC correlation mechanism of the ot-br-posix gateway daemon.

The repository sources provide the class declarations
(`src/rest/connection.hpp`, `src/dbus/client/thread_api_dbus.hpp`): the
member fields, the method signatures and their const qualifiers.  The method
bodies (`connection.cpp`, `thread_api_dbus.cpp`) are not among the sources,
so every behavioural definition below is modelled from the specification
(`spec.md`, sections 3-7), faithful to its words, over the field layout
declared in the headers.
-/

/-- The connection state enum (`ConnectionState`), from the spec data model:
`Init | ReadWait | CallbackWait | WriteWait | Complete`. -/
inductive ConnectionState
  | Init
  | ReadWait
  | CallbackWait
  | WriteWait
  | Complete
deriving DecidableEq, Repr

/-- Modelled from the spec: a parsed request -- method token, path, ordered
query parameters, header mapping, raw body bytes, and a completeness flag set
by the parser (connection.hpp declares the `Request mRequest` field; the
Request class body is not among the sources). -/
structure Request where
  mMethod : String
  mPath : String
  mQueries : List (String × String)
  mHeaders : List (String × String)
  mBody : List Nat
  mComplete : Bool
deriving DecidableEq, Repr

/-- Modelled from the spec: a response -- numeric status, header mapping,
body bytes, plus an internal write cursor counting the bytes already flushed
to the socket (connection.hpp declares the `Response mResponse` field; the
Response class body is not among the sources). -/
structure Response where
  mStatus : Nat
  mHeaders : List (String × String)
  mBody : List Nat
  mWriteCursor : Nat
deriving DecidableEq, Repr

/-- Modelled from the spec: serialization of a response to wire bytes
(status line, headers, body).  Only the byte sequence as a whole matters to
the state machine; the exact wire grammar is an external collaborator. -/
def Response.serialize (r : Response) : List Nat :=
  ((toString r.mStatus).toList.map Char.toNat)
    ++ (r.mHeaders.map (fun p => (p.1 ++ ": " ++ p.2).toList.map Char.toNat)).flatten
    ++ r.mBody

/-- Modelled from the spec: the incremental parser collaborator is stateful
across calls within one connection; the core only stores it and feeds bytes
into it (connection.hpp declares the `Parser mParser` field; the Parser class
body is not among the sources).  Its state is the bytes accumulated so far. -/
structure Parser where
  mBuffer : List Nat
deriving DecidableEq, Repr

/-- Modelled from the spec: outcome of one non-blocking read on the socket --
some bytes arrived, the peer closed, or a read error occurred. -/
inductive ReadOutcome
  | data (bytes : List Nat)
  | closed
  | readError
deriving DecidableEq, Repr

/-- Modelled from the spec: the parser collaborator contract
`feed(bytes) -> incomplete | complete(Message) | malformed`. -/
inductive ParseOutcome
  | incomplete
  | parsed (req : Request)
  | malformed
deriving DecidableEq, Repr

/-- Modelled from the spec: the resource-handler collaborator contract
`handle(Message) -> immediate(Response) | pending(correlationHandle)`. -/
inductive HandlerOutcome
  | immediate (resp : Response)
  | pending (handle : Nat)
deriving DecidableEq, Repr

/-- Modelled from the spec: the environment of one `Process` call -- what the
socket and the collaborators would answer if consulted during this call.
`writeCapacity` is the number of bytes the socket can accept without
blocking; `writeFails` signals a write error on the socket. -/
structure ProcessEnv where
  readOutcome : ReadOutcome
  parseOutcome : ParseOutcome
  handlerOutcome : HandlerOutcome
  writeCapacity : Nat
  writeFails : Bool
deriving DecidableEq, Repr

/-- Bytes currently available for reading in this environment. -/
def ProcessEnv.readAvail (env : ProcessEnv) : Nat :=
  match env.readOutcome with
  | ReadOutcome.data bytes => bytes.length
  | _ => 0

/-- One low-level socket I/O operation performed during a `Process` call,
carrying the bytes transferred.  A read returning peer-close or error
transfers no bytes. -/
inductive IOEvent
  | readOp (bytes : List Nat)
  | writeOp (bytes : List Nat)
deriving DecidableEq, Repr

/-- Modelled from the spec: fixed per-phase policy constant for the read
phase (design note: exact values are configuration constants, unspecified in
the interfaces shown). -/
def kReadTimeout : Nat := 1000

/-- Modelled from the spec: fixed per-phase policy constant for the callback
phase. -/
def kCallbackTimeout : Nat := 10000

/-- Modelled from the spec: fixed per-phase policy constant for the write
phase. -/
def kWriteTimeout : Nat := 1000

/-- Modelled from the spec: the timeout-error response loaded when a phase
budget is exceeded. -/
def timeoutResponse : Response :=
  { mStatus := 408, mHeaders := [], mBody := [], mWriteCursor := 0 }

/-- Modelled from the spec: the synthesized error response for transport and
protocol errors (best effort, only if the socket is still writable). -/
def errorResponse : Response :=
  { mStatus := 500, mHeaders := [], mBody := [], mWriteCursor := 0 }

/-- The Connection, with the fields declared in connection.hpp: checkpoint
timestamp `mTimeStamp`, file descriptor `mFd`, state `mState`, bound
response `mResponse`, bound request `mRequest`, parser `mParser`, resource
handler reference `mResource` (an opaque collaborator reference), and the
write buffer `mWriteContent` holding the serialized response bytes.
Timestamps are instants of a monotonic clock, modelled as naturals. -/
structure Connection where
  mTimeStamp : Nat
  mFd : Int
  mState : ConnectionState
  mResponse : Response
  mRequest : Request
  mParser : Parser
  mResource : Nat
  mWriteContent : List Nat
deriving DecidableEq, Repr

/-- Modelled from the spec: `Init()` arms the checkpoint timestamp and sets
the state to `ReadWait`; no I/O is performed yet. -/
def Connection.Init (c : Connection) (now : Nat) : Connection :=
  { c with mTimeStamp := now, mState := ConnectionState.ReadWait }

/-- Modelled from the spec: `Disconnect` on a transport or protocol error --
terminal, no retry; synthesize the error response (staged into the write
buffer) only if the socket is still in a writable state, else close
silently.  Either way the connection becomes `Complete`. -/
def Connection.Disconnect (c : Connection) (now : Nat) (writable : Bool) : Connection :=
  if writable then
    { c with mState := ConnectionState.Complete, mTimeStamp := now,
             mResponse := errorResponse,
             mWriteContent := errorResponse.serialize }
  else
    { c with mState := ConnectionState.Complete, mTimeStamp := now }

/-- Modelled from the spec: `Handle` dispatches the completed request to the
resource handler.  An immediate response is staged and the connection moves
to `WriteWait`; a pending outcome leaves the connection in `CallbackWait`
(the correlation handle is registered in the live-connection registry, see
`World`). -/
def Connection.Handle (c : Connection) (now : Nat) (outcome : HandlerOutcome) : Connection :=
  match outcome with
  | HandlerOutcome.immediate resp =>
      { c with mState := ConnectionState.WriteWait, mTimeStamp := now,
               mResponse := { resp with mWriteCursor := 0 },
               mWriteContent := Response.serialize resp }
  | HandlerOutcome.pending _ => c

/-- Modelled from the spec: `ProcessWaitRead` -- if the checkpoint age
exceeds the read timeout, move to `WriteWait` with the timeout-error
response loaded; otherwise, if readable, perform exactly one non-blocking
read of the bytes currently available and feed them to the parser:
`incomplete` stays in `ReadWait`, `complete` moves to `CallbackWait` and
dispatches the handler, `malformed` / peer close / read error disconnect. -/
def Connection.ProcessWaitRead (c : Connection) (now : Nat) (readable writable : Bool)
    (env : ProcessEnv) : Connection × List IOEvent :=
  if now - c.mTimeStamp > kReadTimeout then
    ({ c with mState := ConnectionState.WriteWait, mTimeStamp := now,
              mResponse := timeoutResponse,
              mWriteContent := timeoutResponse.serialize }, [])
  else if readable then
    match env.readOutcome with
    | ReadOutcome.data bytes =>
        let fed := { c with mParser := { mBuffer := c.mParser.mBuffer ++ bytes } }
        match env.parseOutcome with
        | ParseOutcome.incomplete => (fed, [IOEvent.readOp bytes])
        | ParseOutcome.parsed req =>
            let cw := { fed with mRequest := req,
                                 mState := ConnectionState.CallbackWait,
                                 mTimeStamp := now }
            (cw.Handle now env.handlerOutcome, [IOEvent.readOp bytes])
        | ParseOutcome.malformed => (fed.Disconnect now writable, [IOEvent.readOp bytes])
    | ReadOutcome.closed => (c.Disconnect now writable, [IOEvent.readOp []])
    | ReadOutcome.readError => (c.Disconnect now writable, [IOEvent.readOp []])
  else (c, [])

/-- Modelled from the spec: `ProcessWaitCallback` -- the connection consumes
no read or write readiness while waiting on the callback; the only event it
reacts to in `Process` is its checkpoint age exceeding the callback timeout,
upon which it moves to `WriteWait` with the timeout-error response loaded.
(The stale correlation handle is invalidated at the registry, see
`World.processConn`.) -/
def Connection.ProcessWaitCallback (c : Connection) (now : Nat) : Connection :=
  if now - c.mTimeStamp > kCallbackTimeout then
    { c with mState := ConnectionState.WriteWait, mTimeStamp := now,
             mResponse := timeoutResponse,
             mWriteContent := timeoutResponse.serialize }
  else c

/-- Modelled from the spec: `Write` flushes at most the bytes the socket can
accept without blocking, starting at the response's write cursor; when the
cursor reaches the end of the serialized bytes the connection is
`Complete`. -/
def Connection.Write (c : Connection) (now : Nat) (capacity : Nat) : Connection × List IOEvent :=
  let remaining := c.mWriteContent.drop c.mResponse.mWriteCursor
  let chunk := remaining.take capacity
  let newCursor := c.mResponse.mWriteCursor + chunk.length
  if c.mWriteContent.length ≤ newCursor then
    ({ c with mState := ConnectionState.Complete, mTimeStamp := now,
              mResponse := { c.mResponse with mWriteCursor := newCursor } },
     [IOEvent.writeOp chunk])
  else
    ({ c with mResponse := { c.mResponse with mWriteCursor := newCursor } },
     [IOEvent.writeOp chunk])

/-- Modelled from the spec: `ProcessWaitWrite` -- if the checkpoint age
exceeds the write timeout, the socket is presumed dead and the connection is
`Complete`; otherwise, if writable, perform exactly one partial write (a
write error is terminal). -/
def Connection.ProcessWaitWrite (c : Connection) (now : Nat) (writable : Bool)
    (env : ProcessEnv) : Connection × List IOEvent :=
  if now - c.mTimeStamp > kWriteTimeout then
    ({ c with mState := ConnectionState.Complete, mTimeStamp := now }, [])
  else if writable then
    if env.writeFails then
      ({ c with mState := ConnectionState.Complete, mTimeStamp := now },
       [IOEvent.writeOp []])
    else c.Write now env.writeCapacity
  else (c, [])

/-- Modelled from the spec: `Process(readable, writable)` -- called once per
loop iteration; dispatches on the current state, performs at most one
non-blocking read or write, advances state, never blocks.  `Complete` is
terminal.  Besides the new connection it yields the list of socket I/O
operations performed during the call. -/
def Connection.Process (c : Connection) (now : Nat) (readable writable : Bool)
    (env : ProcessEnv) : Connection × List IOEvent :=
  match c.mState with
  | ConnectionState.Init => (c, [])
  | ConnectionState.ReadWait => c.ProcessWaitRead now readable writable env
  | ConnectionState.CallbackWait => (c.ProcessWaitCallback now, [])
  | ConnectionState.WriteWait => c.ProcessWaitWrite now writable env
  | ConnectionState.Complete => (c, [])

/-- The reactor mainloop context (`otSysMainloopContext`): the aggregated
read- and write-interest sets, the maximal descriptor, and the loop's
blocking-wait ceiling. -/
structure MainloopContext where
  readFds : List Int
  writeFds : List Int
  maxFd : Int
  timeout : Nat
deriving DecidableEq, Repr

/-- Modelled from the spec: `UpdateReadFdSet` declares read interest exactly
when the connection awaits request bytes. -/
def Connection.UpdateReadFdSet (c : Connection) (m : MainloopContext) : MainloopContext :=
  if c.mState = ConnectionState.ReadWait then
    { m with readFds := c.mFd :: m.readFds, maxFd := max m.maxFd c.mFd }
  else m

/-- Modelled from the spec: `UpdateWriteFdSet` declares write interest
exactly when the connection has response bytes pending. -/
def Connection.UpdateWriteFdSet (c : Connection) (m : MainloopContext) : MainloopContext :=
  if c.mState = ConnectionState.WriteWait then
    { m with writeFds := c.mFd :: m.writeFds, maxFd := max m.maxFd c.mFd }
  else m

/-- Modelled from the spec: the time until this connection's next per-phase
timeout expiry, measured from its checkpoint; saturating at zero once the
budget is exhausted.  Terminal and not-yet-initialized connections
contribute no deadline. -/
def Connection.nextDeadline (c : Connection) (now : Nat) : Option Nat :=
  match c.mState with
  | ConnectionState.ReadWait => some (kReadTimeout - (now - c.mTimeStamp))
  | ConnectionState.CallbackWait => some (kCallbackTimeout - (now - c.mTimeStamp))
  | ConnectionState.WriteWait => some (kWriteTimeout - (now - c.mTimeStamp))
  | _ => none

/-- Modelled from the spec: `UpdateTimeout` lowers the loop's blocking-wait
ceiling to this connection's next deadline when that is smaller. -/
def Connection.UpdateTimeout (c : Connection) (now : Nat) (m : MainloopContext) : MainloopContext :=
  match c.nextDeadline now with
  | some d => { m with timeout := min m.timeout d }
  | none => m

/-- Modelled from the spec: `UpdateFdSet` declares, for the current state,
whether the socket is of read- or write-interest, and contributes the
connection's next deadline to the loop's minimum wait time.  The method is
declared `const` in connection.hpp (line 88) and the class has no mutable
members, so the embedded state transformer returns the connection
unchanged. -/
def Connection.UpdateFdSet (c : Connection) (now : Nat) (m : MainloopContext) :
    MainloopContext × Connection :=
  (c.UpdateTimeout now (c.UpdateWriteFdSet (c.UpdateReadFdSet m)), c)

/-- `IsComplete` is true iff no more work remains and the owner may safely
destroy the instance.  Declared `const` in connection.hpp (line 97), so the
embedded state transformer returns the connection unchanged. -/
def Connection.IsComplete (c : Connection) : Bool × Connection :=
  (c.mState = ConnectionState.Complete, c)

/-- Modelled from the spec: the outcome reported by the callback entry
point.  A delivery for an invalid handle is discarded -- this is an expected
race, not an error; there is no error outcome (a callback firing after
invalidation is swallowed, never surfaced as an error). -/
inductive DeliverOutcome
  | delivered
  | discarded
deriving DecidableEq, Repr

/-- Modelled from the spec: the live-connection registry realising the
correlation mechanism of section 4.2 / design note of section 9 -- the
callback holds only a validity-checked handle resolved through this
registry, never a direct reference.  `conns` are the live connections keyed
by connection id (owned by the external collection), `handles` maps each
valid correlation handle to its owning connection id, and `upstream` lists
the control-plane operations still outstanding upstream (by handle). -/
structure World where
  conns : List (Nat × Connection)
  handles : List (Nat × Nat)
  upstream : List Nat
deriving DecidableEq, Repr

/-- Look up the owning connection id of a correlation handle; `none` means
the handle is invalid (already resolved, invalidated, or never issued). -/
def World.handleTarget (w : World) (h : Nat) : Option Nat :=
  w.handles.lookup h

/-- Look up a live connection by id. -/
def World.findConn (w : World) (cid : Nat) : Option Connection :=
  w.conns.lookup cid

/-- Replace the connection stored under `cid` (if live). -/
def World.setConn (w : World) (cid : Nat) (c : Connection) : World :=
  { w with conns := w.conns.map (fun p => if p.1 = cid then (cid, c) else p) }

/-- Modelled from the spec: invalidate every correlation handle owned by
connection `cid`, so that a late completion is dropped; the upstream
operation is not force-cancelled. -/
def World.invalidateHandles (w : World) (cid : Nat) : World :=
  { w with handles := w.handles.filter (fun p => p.2 ≠ cid) }

/-- Modelled from the spec: the owner destroys a connection after observing
`IsComplete`; the connection is removed from the live registry and its
correlation handles are invalidated atomically with destruction (before the
next loop iteration can dispatch a stale callback). -/
def World.teardown (w : World) (cid : Nat) : World :=
  { conns := w.conns.filter (fun p => p.1 ≠ cid),
    handles := w.handles.filter (fun p => p.2 ≠ cid),
    upstream := w.upstream }

/-- Modelled from the spec: resolving a correlation handle removes it from
the registry, so that a second delivery for it finds it invalid. -/
def World.dropHandle (w : World) (h : Nat) : World :=
  { w with handles := w.handles.filter (fun p => p.1 ≠ h) }

/-- Modelled from the spec: the callback entry point invoked by the RPC
dispatch path with the outcome of an asynchronous operation.  It first
verifies that the correlation handle is still valid (the owning connection
has not been destroyed and has not already timed out past this phase); if
invalid the result is discarded.  If valid, the resulting response is staged
into the connection, which transitions to `WriteWait`, and the handle is
resolved (removed), so that delivery happens at most once. -/
def World.deliverCallback (w : World) (h : Nat) (now : Nat) (resp : Response) :
    World × DeliverOutcome :=
  match w.handleTarget h with
  | none => (w, DeliverOutcome.discarded)
  | some cid =>
    match w.findConn cid with
    | none => (w, DeliverOutcome.discarded)
    | some c =>
      if c.mState = ConnectionState.CallbackWait then
        ((w.setConn cid
            { c with mState := ConnectionState.WriteWait, mTimeStamp := now,
                     mResponse := { resp with mWriteCursor := 0 },
                     mWriteContent := Response.serialize resp }).dropHandle h,
         DeliverOutcome.delivered)
      else (w, DeliverOutcome.discarded)

/-- Modelled from the spec: one reactor dispatch into connection `cid` --
the connection is processed, and if its callback phase timed out during
this call its stale correlation handles are invalidated (but the upstream
operation is not cancelled). -/
def World.processConn (w : World) (cid : Nat) (now : Nat) (readable writable : Bool)
    (env : ProcessEnv) : World :=
  match w.findConn cid with
  | none => w
  | some c =>
    let w1 := w.setConn cid (c.Process now readable writable env).1
    if c.mState = ConnectionState.CallbackWait ∧ now - c.mTimeStamp > kCallbackTimeout then
      w1.invalidateHandles cid
    else w1

/-- Modelled from the spec: repeated `Process` calls while the connection is
flushing its response.  Each step supplies the current time and the number
of bytes the socket can accept; the connection is always write-ready and no
write error occurs.  Yields the final connection and the chunks flushed, in
order. -/
def Connection.drainWrites (c : Connection) (steps : List (Nat × Nat)) :
    Connection × List (List Nat) :=
  match steps with
  | [] => (c, [])
  | (now, cap) :: rest =>
    let out := c.Process now false true
      { readOutcome := ReadOutcome.data [], parseOutcome := ParseOutcome.incomplete,
        handlerOutcome := HandlerOutcome.pending 0,
        writeCapacity := cap, writeFails := false }
    let chunks := out.2.filterMap (fun e =>
      match e with
      | IOEvent.writeOp b => some b
      | _ => none)
    let tail := out.1.drainWrites rest
    (tail.1, chunks ++ tail.2)

/-- Opaque token standing for a `std::function` scan-result handler value. -/
def ScanHandler := Nat
deriving DecidableEq, Repr

/-- Opaque token standing for a `std::function` result handler value. -/
def OtResultHandler := Nat
deriving DecidableEq, Repr

/-- The d-bus client, with the fields declared in thread_api_dbus.hpp: the
interface name, the connection (an opaque reference), exactly one handler
slot per asynchronous operation kind (`mScanHandler`, `mAttachHandler`,
`mFactoryResetHandler`, `mJoinerHandler` -- each a single `std::function`
member, not a queue), and the list of device-role handlers. -/
structure ThreadApiDBus where
  mInterfaceName : String
  mConnection : Nat
  mScanHandler : Option ScanHandler
  mAttachHandler : Option OtResultHandler
  mFactoryResetHandler : Option OtResultHandler
  mJoinerHandler : Option OtResultHandler
  mDeviceRoleHandlers : List Nat
deriving DecidableEq, Repr

/-- Modelled from the spec: the body of `Scan` is not among the sources; the
header declares the single slot `mScanHandler`, into which starting a scan
stores its result handler (replacing any previous one). -/
def ThreadApiDBus.Scan (api : ThreadApiDBus) (h : ScanHandler) : ThreadApiDBus :=
  { api with mScanHandler := some h }

/-- Modelled from the spec: the body of `Attach` is not among the sources;
the header declares the single slot `mAttachHandler`, into which starting an
attach stores its result handler (replacing any previous one). -/
def ThreadApiDBus.Attach (api : ThreadApiDBus) (h : OtResultHandler) : ThreadApiDBus :=
  { api with mAttachHandler := some h }

/-- Modelled from the spec: the body of `FactoryReset` is not among the
sources; the header declares the single slot `mFactoryResetHandler`. -/
def ThreadApiDBus.FactoryReset (api : ThreadApiDBus) (h : OtResultHandler) : ThreadApiDBus :=
  { api with mFactoryResetHandler := some h }

/-- Modelled from the spec: the body of `JoinerStart` is not among the
sources; the header declares the single slot `mJoinerHandler`. -/
def ThreadApiDBus.JoinerStart (api : ThreadApiDBus) (h : OtResultHandler) : ThreadApiDBus :=
  { api with mJoinerHandler := some h }

/-- Modelled from the spec: each pending-call handler resolves the stored
handler of its kind and clears the slot. -/
def ThreadApiDBus.ScanPendingCallHandler (api : ThreadApiDBus) : ThreadApiDBus :=
  { api with mScanHandler := none }

/-- Modelled from the spec: resolves and clears the attach handler slot. -/
def ThreadApiDBus.AttachPendingCallHandler (api : ThreadApiDBus) : ThreadApiDBus :=
  { api with mAttachHandler := none }

/-- Modelled from the spec: resolves and clears the factory-reset handler
slot. -/
def ThreadApiDBus.FactoryResetPendingCallHandler (api : ThreadApiDBus) : ThreadApiDBus :=
  { api with mFactoryResetHandler := none }

/-- Modelled from the spec: resolves and clears the joiner handler slot. -/
def ThreadApiDBus.JoinerStartPendingCallHandler (api : ThreadApiDBus) : ThreadApiDBus :=
  { api with mJoinerHandler := none }

/-- Modelled from the spec: registers an additional device-role handler
(this one IS a vector in the header, unlike the per-operation slots). -/
def ThreadApiDBus.AddDeviceRoleHandler (api : ThreadApiDBus) (h : Nat) : ThreadApiDBus :=
  { api with mDeviceRoleHandlers := api.mDeviceRoleHandlers ++ [h] }

/-- One operation on the d-bus client relevant to handler bookkeeping. -/
inductive ApiOp
  | scan (h : Nat)
  | attach (h : Nat)
  | factoryReset (h : Nat)
  | joinerStart (h : Nat)
  | scanDone
  | attachDone
  | factoryResetDone
  | joinerDone
  | addDeviceRoleHandler (h : Nat)
deriving DecidableEq, Repr

/-- Apply one operation to the d-bus client state. -/
def ThreadApiDBus.applyOp (api : ThreadApiDBus) (op : ApiOp) : ThreadApiDBus :=
  match op with
  | ApiOp.scan h => api.Scan h
  | ApiOp.attach h => api.Attach h
  | ApiOp.factoryReset h => api.FactoryReset h
  | ApiOp.joinerStart h => api.JoinerStart h
  | ApiOp.scanDone => api.ScanPendingCallHandler
  | ApiOp.attachDone => api.AttachPendingCallHandler
  | ApiOp.factoryResetDone => api.FactoryResetPendingCallHandler
  | ApiOp.joinerDone => api.JoinerStartPendingCallHandler
  | ApiOp.addDeviceRoleHandler h => api.AddDeviceRoleHandler h

/-- Apply a sequence of operations, left to right. -/
def ThreadApiDBus.applyOps (api : ThreadApiDBus) (ops : List ApiOp) : ThreadApiDBus :=
  match ops with
  | [] => api
  | op :: rest => (api.applyOp op).applyOps rest

/-- The four asynchronous operation kinds with a dedicated handler slot. -/
inductive OpKind
  | scanK
  | attachK
  | resetK
  | joinerK
deriving DecidableEq, Repr

/-- Number of pending result handlers stored for an operation kind. -/
def ThreadApiDBus.pendingCount (api : ThreadApiDBus) (k : OpKind) : Nat :=
  match k with
  | OpKind.scanK => match api.mScanHandler with | none => 0 | some _ => 1
  | OpKind.attachK => match api.mAttachHandler with | none => 0 | some _ => 1
  | OpKind.resetK => match api.mFactoryResetHandler with | none => 0 | some _ => 1
  | OpKind.joinerK => match api.mJoinerHandler with | none => 0 | some _ => 1

/-- A lookup never finds a key that the filter removed. -/
theorem lookup_filter_key_none {β : Type} (l : List (Nat × β)) (h : Nat) :
    (l.filter (fun p => p.1 ≠ h)).lookup h = none := by
  induction l with
  | nil => rfl
  | cons a t ih =>
    obtain ⟨k, v⟩ := a
    by_cases hek : k = h
    · simpa [List.filter_cons, hek] using ih
    · simp only [List.filter_cons]
      have hd : (decide ¬(k, v).1 = h) = true := by simpa using hek
      rw [if_pos hd, List.lookup_cons]
      have hb : (h == k) = false := by simpa using fun he => hek he.symm
      simpa [hb] using ih

/-- If every entry of handle `h` is owned by `cid`, then after removing the
entries owned by `cid` no entry of `h` remains. -/
theorem lookup_filter_owner_none (l : List (Nat × Nat)) (h cid : Nat)
    (hown : ∀ x, (h, x) ∈ l → x = cid) :
    (l.filter (fun p => p.2 ≠ cid)).lookup h = none := by
  induction l with
  | nil => rfl
  | cons a t ih =>
    obtain ⟨k, v⟩ := a
    have ht : ∀ x, (h, x) ∈ t → x = cid := fun x hx => hown x (List.mem_cons_of_mem _ hx)
    by_cases hv : v = cid
    · simpa [List.filter_cons, hv] using ih ht
    · have hk : k ≠ h := by
        intro he
        exact hv (hown v (by rw [he]; exact List.mem_cons_self (h, v) t))
      simp only [List.filter_cons]
      have hd : (decide ¬(k, v).2 = cid) = true := by simpa using hv
      rw [if_pos hd, List.lookup_cons]
      have hb : (h == k) = false := by simpa using fun he => hk he.symm
      simpa [hb] using ih ht

/-- Replacing the connection stored under a live id is visible to lookup. -/
theorem lookup_map_replace (l : List (Nat × Connection)) (cid : Nat) (c0 c : Connection)
    (hl : l.lookup cid = some c0) :
    (l.map (fun p => if p.1 = cid then (cid, c) else p)).lookup cid = some c := by
  induction l with
  | nil => simp [List.lookup] at hl
  | cons a t ih =>
    obtain ⟨k, v⟩ := a
    by_cases hek : k = cid
    · simp [List.map_cons, hek, List.lookup_cons]
    · have hb : (cid == k) = false := by simpa using fun he => hek he.symm
      simp only [List.map_cons] at *
      rw [show (if (k, v).1 = cid then (cid, c) else (k, v)) = (k, v) by simp [hek]]
      rw [List.lookup_cons] at hl ⊢
      simp only [hb] at hl ⊢
      exact ih hl

/-- A concrete request used in the closed-form instances below. -/
def reqEx : Request :=
  { mMethod := "GET", mPath := "/node", mQueries := [], mHeaders := [],
    mBody := [], mComplete := true }

/-- A concrete response used in the closed-form instances below. -/
def respEx : Response :=
  { mStatus := 200, mHeaders := [], mBody := [1, 2, 3, 4, 5], mWriteCursor := 0 }

/-- A concrete connection suspended in `CallbackWait`. -/
def connCbEx : Connection :=
  { mTimeStamp := 0, mFd := 4, mState := ConnectionState.CallbackWait,
    mResponse := respEx, mRequest := reqEx, mParser := { mBuffer := [] },
    mResource := 0, mWriteContent := [] }

/-- A concrete world: one live connection (id 1) awaiting the completion of
correlation handle 5, with the upstream operation still outstanding. -/
def worldEx : World :=
  { conns := [(1, connCbEx)], handles := [(5, 1)], upstream := [5] }

/-- The same world after its only correlation handle has been invalidated. -/
def worldStaleEx : World :=
  { conns := [(1, connCbEx)], handles := [], upstream := [5] }

/-- A concrete environment for `Process` calls. -/
def envEx : ProcessEnv :=
  { readOutcome := ReadOutcome.data [7], parseOutcome := ParseOutcome.incomplete,
    handlerOutcome := HandlerOutcome.pending 5, writeCapacity := 3, writeFails := false }

/-- A delivery for an invalid handle discards the result and changes
nothing. -/
theorem deliverCallback_of_invalid (w : World) (h now : Nat) (r : Response)
    (hn : w.handleTarget h = none) :
    w.deliverCallback h now r = (w, DeliverOutcome.discarded) := by
  simp [World.deliverCallback, hn]

/-- Dropping a handle makes it invalid, whatever else the world holds. -/
theorem handleTarget_dropHandle (w : World) (h : Nat) :
    (w.dropHandle h).handleTarget h = none := by
  simpa [World.handleTarget, World.dropHandle] using lookup_filter_key_none w.handles h

/-- Claim C1: delivery of a callback result for a correlation handle that is
already resolved or invalidated is a no-op -- the world (hence the owning
connection's state and its already-loaded timeout response) is unchanged and
the result is discarded, not surfaced as an error; and resolving the same
handle a second time is idempotent. -/
theorem callback_delivery_idempotent (w : World) (h now now2 : Nat) (r r2 : Response) :
    (w.handleTarget h = none →
      w.deliverCallback h now r = (w, DeliverOutcome.discarded)) ∧
    ((w.deliverCallback h now r).1.deliverCallback h now2 r2).1 =
      (w.deliverCallback h now r).1 := by
  refine ⟨fun hn => deliverCallback_of_invalid w h now r hn, ?_⟩
  rcases hh : w.handleTarget h with _ | cid
  · rw [deliverCallback_of_invalid w h now r hh]
    show (w.deliverCallback h now2 r2).1 = w
    rw [deliverCallback_of_invalid w h now2 r2 hh]
  · rcases hc : w.findConn cid with _ | c
    · have hfirst : w.deliverCallback h now r = (w, DeliverOutcome.discarded) := by
        simp [World.deliverCallback, hh, hc]
      have hsecond : w.deliverCallback h now2 r2 = (w, DeliverOutcome.discarded) := by
        simp [World.deliverCallback, hh, hc]
      rw [hfirst]
      show (w.deliverCallback h now2 r2).1 = w
      rw [hsecond]
    · by_cases hs : c.mState = ConnectionState.CallbackWait
      · obtain ⟨w1, hf⟩ : ∃ w1,
            w.deliverCallback h now r = (World.dropHandle w1 h, DeliverOutcome.delivered) :=
          ⟨w.setConn cid
             { c with mState := ConnectionState.WriteWait, mTimeStamp := now,
                      mResponse := { r with mWriteCursor := 0 },
                      mWriteContent := Response.serialize r },
           by simp [World.deliverCallback, hh, hc, hs]⟩
        rw [hf]
        show ((w1.dropHandle h).deliverCallback h now2 r2).1 = w1.dropHandle h
        rw [deliverCallback_of_invalid (w1.dropHandle h) h now2 r2
          (handleTarget_dropHandle w1 h)]
      · have hfirst : w.deliverCallback h now r = (w, DeliverOutcome.discarded) := by
          simp [World.deliverCallback, hh, hc, hs]
        have hsecond : w.deliverCallback h now2 r2 = (w, DeliverOutcome.discarded) := by
          simp [World.deliverCallback, hh, hc, hs]
        rw [hfirst]
        show (w.deliverCallback h now2 r2).1 = w
        rw [hsecond]

/-- Closed instance of `callback_delivery_idempotent`: in a world whose only
handle is already invalidated, delivery is the identity; and a second
delivery after a successful one changes nothing. -/
theorem callback_delivery_idempotent_instance :
    worldStaleEx.deliverCallback 5 20 respEx = (worldStaleEx, DeliverOutcome.discarded) ∧
    ((worldEx.deliverCallback 5 20 respEx).1.deliverCallback 5 30 respEx).1 =
      (worldEx.deliverCallback 5 20 respEx).1 :=
  ⟨(callback_delivery_idempotent worldStaleEx 5 20 30 respEx respEx).1 rfl,
   (callback_delivery_idempotent worldEx 5 20 30 respEx respEx).2⟩

/-- Claim C2: after the owner has torn down a connection, invoking a
still-outstanding callback registered for it is observably a no-op -- the
registry lookup fails, nothing is accessed or mutated, and the result is
discarded. -/
theorem teardown_late_callback_noop (w : World) (cid h now : Nat) (r : Response)
    (hown : ∀ x, (h, x) ∈ w.handles → x = cid) :
    (w.teardown cid).deliverCallback h now r = (w.teardown cid, DeliverOutcome.discarded) := by
  have hn : (w.teardown cid).handleTarget h = none :=
    lookup_filter_owner_none w.handles h cid hown
  simp [World.deliverCallback, hn]

/-- Closed instance of `teardown_late_callback_noop`: destroy connection 1 of
the concrete world, then fire its callback for handle 5. -/
theorem teardown_late_callback_noop_instance :
    (worldEx.teardown 1).deliverCallback 5 99 respEx =
      (worldEx.teardown 1, DeliverOutcome.discarded) :=
  teardown_late_callback_noop worldEx 1 5 99 respEx (by
    intro x hx
    simp [worldEx] at hx
    exact hx)

/-- A concrete connection stuck in `ReadWait` long past the read budget. -/
def connReadTO : Connection :=
  { connCbEx with mState := ConnectionState.ReadWait, mTimeStamp := 0 }

/-- A concrete connection stuck in `WriteWait` long past the write budget. -/
def connWriteTO : Connection :=
  { connCbEx with mState := ConnectionState.WriteWait, mTimeStamp := 0 }

/-- A concrete world whose connection 1 sits in `CallbackWait` past the
callback budget, handle 5 still registered and upstream outstanding. -/
def worldCbTO : World :=
  { conns := [(1, connCbEx)], handles := [(5, 1)], upstream := [5] }

/-- Claim C3: when the checkpoint age exceeds the per-phase timeout, the
state transitions exactly as the table prescribes -- `ReadWait` moves to
`WriteWait` with the timeout-error response loaded; `WriteWait` moves to
`Complete`; `CallbackWait` moves to `WriteWait` with the timeout-error
response loaded, its stale correlation handles are invalidated, and the
upstream operation is not cancelled. -/
theorem timeout_transitions (c : Connection) (w : World) (cid now : Nat)
    (readable writable : Bool) (env : ProcessEnv) :
    (c.mState = ConnectionState.ReadWait → now - c.mTimeStamp > kReadTimeout →
      (c.Process now readable writable env).1 =
        { c with mState := ConnectionState.WriteWait, mTimeStamp := now,
                 mResponse := timeoutResponse,
                 mWriteContent := timeoutResponse.serialize }) ∧
    (c.mState = ConnectionState.WriteWait → now - c.mTimeStamp > kWriteTimeout →
      (c.Process now readable writable env).1 =
        { c with mState := ConnectionState.Complete, mTimeStamp := now }) ∧
    (w.findConn cid = some c → c.mState = ConnectionState.CallbackWait →
      now - c.mTimeStamp > kCallbackTimeout →
      (w.processConn cid now readable writable env).findConn cid =
        some { c with mState := ConnectionState.WriteWait, mTimeStamp := now,
                      mResponse := timeoutResponse,
                      mWriteContent := timeoutResponse.serialize } ∧
      (∀ hh ocid, (hh, ocid) ∈ (w.processConn cid now readable writable env).handles →
        ocid ≠ cid) ∧
      (w.processConn cid now readable writable env).upstream = w.upstream) := by
  refine ⟨?_, ?_, ?_⟩
  · intro hs hto
    simp [Connection.Process, hs, Connection.ProcessWaitRead, hto]
  · intro hs hto
    simp [Connection.Process, hs, Connection.ProcessWaitWrite, hto]
  · intro hfind hs hto
    have hstep : (c.Process now readable writable env).1 =
        { c with mState := ConnectionState.WriteWait, mTimeStamp := now,
                 mResponse := timeoutResponse,
                 mWriteContent := timeoutResponse.serialize } := by
      simp [Connection.Process, hs, Connection.ProcessWaitCallback, hto]
    have hp : w.processConn cid now readable writable env =
        (w.setConn cid (c.Process now readable writable env).1).invalidateHandles cid := by
      simp [World.processConn, hfind, hs, hto]
    refine ⟨?_, ?_, ?_⟩
    · rw [hp, hstep]
      show ((w.setConn cid _).invalidateHandles cid).conns.lookup cid = _
      have : ((w.setConn cid
          { c with mState := ConnectionState.WriteWait, mTimeStamp := now,
                   mResponse := timeoutResponse,
                   mWriteContent := timeoutResponse.serialize }).invalidateHandles cid).conns =
          w.conns.map (fun p => if p.1 = cid then
            (cid, { c with mState := ConnectionState.WriteWait, mTimeStamp := now,
                           mResponse := timeoutResponse,
                           mWriteContent := timeoutResponse.serialize }) else p) := rfl
      rw [this]
      exact lookup_map_replace w.conns cid c _ hfind
    · rw [hp]
      intro hh ocid hmem
      have : (decide ((hh, ocid).2 ≠ cid)) = true := (List.mem_filter.mp hmem).2
      simpa using this
    · rw [hp]
      rfl

/-- Closed instance of `timeout_transitions`: read-phase, write-phase and
callback-phase expiry, each on a concrete timed-out input. -/
theorem timeout_transitions_instance :
    (connReadTO.Process 2000 false false envEx).1 =
      { connReadTO with mState := ConnectionState.WriteWait, mTimeStamp := 2000,
                        mResponse := timeoutResponse,
                        mWriteContent := timeoutResponse.serialize } ∧
    (connWriteTO.Process 2000 false false envEx).1 =
      { connWriteTO with mState := ConnectionState.Complete, mTimeStamp := 2000 } ∧
    (worldCbTO.processConn 1 20000 false false envEx).findConn 1 =
      some { connCbEx with mState := ConnectionState.WriteWait, mTimeStamp := 20000,
                           mResponse := timeoutResponse,
                           mWriteContent := timeoutResponse.serialize } :=
  ⟨(timeout_transitions connReadTO worldCbTO 1 2000 false false envEx).1 rfl (by decide),
   (timeout_transitions connWriteTO worldCbTO 1 2000 false false envEx).2.1 rfl (by decide),
   ((timeout_transitions connCbEx worldCbTO 1 20000 false false envEx).2.2 rfl rfl
     (by decide)).1⟩

/-- A concrete connection freshly in `ReadWait`, within budget. -/
def connReadLive : Connection :=
  { connCbEx with mState := ConnectionState.ReadWait, mTimeStamp := 0 }

/-- Claim C4: a single `Process` call performs at most one non-blocking read
or one non-blocking write -- the I/O trace has at most one operation, a read
transfers at most the bytes currently available, and a write transfers at
most the socket's current capacity; no loop ever fills or drains a buffer
within one call. -/
theorem process_single_bounded_io_op (c : Connection) (now : Nat)
    (readable writable : Bool) (env : ProcessEnv) :
    (c.Process now readable writable env).2.length ≤ 1 ∧
    (∀ b, IOEvent.readOp b ∈ (c.Process now readable writable env).2 →
      b.length ≤ env.readAvail) ∧
    (∀ b, IOEvent.writeOp b ∈ (c.Process now readable writable env).2 →
      b.length ≤ env.writeCapacity) := by
  rcases hs : c.mState
  case Init => simp [Connection.Process, hs]
  case Complete => simp [Connection.Process, hs]
  case CallbackWait => simp [Connection.Process, hs]
  case ReadWait =>
    simp only [Connection.Process, hs, Connection.ProcessWaitRead]
    by_cases hto : now - c.mTimeStamp > kReadTimeout
    · simp [hto]
    · rcases readable with _ | _
      · simp [hto]
      · rcases hro : env.readOutcome with bytes | _ | _
        · rcases hpo : env.parseOutcome with _ | req | _
          · simp [hto, hro, hpo, ProcessEnv.readAvail]
          · simp [hto, hro, hpo, ProcessEnv.readAvail]
          · simp [hto, hro, hpo, ProcessEnv.readAvail]
        · simp [hto, hro]
        · simp [hto, hro]
  case WriteWait =>
    simp only [Connection.Process, hs, Connection.ProcessWaitWrite]
    by_cases hto : now - c.mTimeStamp > kWriteTimeout
    · simp [hto]
    · rcases writable with _ | _
      · simp [hto]
      · rcases hwf : env.writeFails with _ | _
        · simp only [hto, hwf, if_neg, if_pos, Bool.false_eq_true, if_false, if_true,
            Connection.Write]
          split_ifs with hfin <;>
            simp [List.length_take, inf_le_left]
        · simp [hto, hwf]

/-- Closed instance of `process_single_bounded_io_op`: one read of the one
available byte in `ReadWait`. -/
theorem process_single_bounded_io_op_instance :
    (connReadLive.Process 10 true false envEx).2.length ≤ 1 ∧
    ([7] : List Nat).length ≤ envEx.readAvail :=
  ⟨(process_single_bounded_io_op connReadLive 10 true false envEx).1,
   (process_single_bounded_io_op connReadLive 10 true false envEx).2.1 [7] (by decide)⟩

/-- Claim C5: the checkpoint timestamp is reset on every state transition,
through every mechanism that performs one -- `Init` arms it on entering
`ReadWait`; whenever a `Process` call changes the state (ReadWait to
CallbackWait, ReadWait to WriteWait, CallbackWait to WriteWait on timeout,
WriteWait to Complete, and the error paths), the resulting timestamp is the
current instant; and when an external completion delivers a callback result
(the CallbackWait to WriteWait transition of `World.deliverCallback`), the
transitioned connection's timestamp is the delivery instant -- so each
phase's budget is measured from entry into that phase. -/
theorem checkpoint_reset_on_transition (c : Connection) (w : World) (h cid now : Nat)
    (readable writable : Bool) (env : ProcessEnv) (r : Response) :
    ((c.Init now).mState = ConnectionState.ReadWait ∧ (c.Init now).mTimeStamp = now) ∧
    ((c.Process now readable writable env).1.mState ≠ c.mState →
      (c.Process now readable writable env).1.mTimeStamp = now) ∧
    (w.handleTarget h = some cid → w.findConn cid = some c →
      c.mState = ConnectionState.CallbackWait →
      (w.deliverCallback h now r).1.findConn cid =
        some { c with mState := ConnectionState.WriteWait, mTimeStamp := now,
                      mResponse := { r with mWriteCursor := 0 },
                      mWriteContent := Response.serialize r }) := by
  refine ⟨⟨rfl, rfl⟩, ?_, ?_⟩
  swap
  · intro hh hc hcb
    have hstep : (w.deliverCallback h now r).1 =
        (w.setConn cid
          { c with mState := ConnectionState.WriteWait, mTimeStamp := now,
                   mResponse := { r with mWriteCursor := 0 },
                   mWriteContent := Response.serialize r }).dropHandle h := by
      simp [World.deliverCallback, hh, hc, hcb]
    rw [hstep]
    show ((w.setConn cid _).dropHandle h).conns.lookup cid = _
    exact lookup_map_replace w.conns cid c _ hc
  rcases hs : c.mState
  case Init => simp [Connection.Process, hs]
  case Complete => simp [Connection.Process, hs]
  case CallbackWait =>
    simp only [Connection.Process, hs, Connection.ProcessWaitCallback]
    by_cases hto : now - c.mTimeStamp > kCallbackTimeout
    · simp [hto]
    · simp [hto, hs]
  case ReadWait =>
    simp only [Connection.Process, hs, Connection.ProcessWaitRead]
    by_cases hto : now - c.mTimeStamp > kReadTimeout
    · simp [hto]
    · rcases readable with _ | _
      · simp [hto, hs]
      · rcases hro : env.readOutcome with bytes | _ | _
        · rcases hpo : env.parseOutcome with _ | req | _
          · simp [hto, hro, hpo, hs]
          · rcases hho : env.handlerOutcome with resp | hdl
            · simp [hto, hro, hpo, hho, Connection.Handle]
            · simp [hto, hro, hpo, hho, Connection.Handle]
          · rcases writable with _ | _
            · simp [hto, hro, hpo, Connection.Disconnect]
            · simp [hto, hro, hpo, Connection.Disconnect]
        · rcases writable with _ | _
          · simp [hto, hro, Connection.Disconnect]
          · simp [hto, hro, Connection.Disconnect]
        · rcases writable with _ | _
          · simp [hto, hro, Connection.Disconnect]
          · simp [hto, hro, Connection.Disconnect]
  case WriteWait =>
    simp only [Connection.Process, hs, Connection.ProcessWaitWrite]
    by_cases hto : now - c.mTimeStamp > kWriteTimeout
    · simp [hto]
    · rcases writable with _ | _
      · simp [hto, hs]
      · rcases hwf : env.writeFails with _ | _
        · simp only [hto, hwf, Bool.false_eq_true, if_false, if_true, if_neg,
            Connection.Write]
          split_ifs with hfin
          · simp
          · simp [hs]
        · simp [hto, hwf]

/-- Closed instance of `checkpoint_reset_on_transition`: arming on `Init`,
the checkpoint after a read-timeout transition equals the call time, and the
checkpoint after an external completion delivers into connection 1 equals
the delivery time. -/
theorem checkpoint_reset_on_transition_instance :
    ((connCbEx.Init 3).mState = ConnectionState.ReadWait ∧
      (connCbEx.Init 3).mTimeStamp = 3) ∧
    (connReadTO.Process 2000 false false envEx).1.mTimeStamp = 2000 ∧
    (worldEx.deliverCallback 5 20 respEx).1.findConn 1 =
      some { connCbEx with mState := ConnectionState.WriteWait, mTimeStamp := 20,
                           mResponse := { respEx with mWriteCursor := 0 },
                           mWriteContent := Response.serialize respEx } :=
  ⟨(checkpoint_reset_on_transition connCbEx worldEx 5 1 3 false false envEx respEx).1,
   (checkpoint_reset_on_transition connReadTO worldEx 5 1 2000 false false envEx
      respEx).2.1 (by decide),
   (checkpoint_reset_on_transition connCbEx worldEx 5 1 20 false false envEx
      respEx).2.2 rfl rfl rfl⟩

/-- A connection in the terminal state is never processed again: `Process`
returns it unchanged with no I/O. -/
theorem process_complete_noop (c : Connection) (now : Nat) (readable writable : Bool)
    (env : ProcessEnv) (hs : c.mState = ConnectionState.Complete) :
    c.Process now readable writable env = (c, []) := by
  simp [Connection.Process, hs]

/-- Claim C6: in `ReadWait`, a malformed request, a peer close, or a read
error makes the connection terminal -- it reaches `Complete` (and is never
retried, `Complete` being absorbing), with the synthesized error response
staged only if the socket is still writable, and a silent close otherwise. -/
theorem readwait_error_terminal (c : Connection) (now : Nat) (writable : Bool)
    (env : ProcessEnv)
    (hs : c.mState = ConnectionState.ReadWait)
    (hto : now - c.mTimeStamp ≤ kReadTimeout)
    (herr : env.readOutcome = ReadOutcome.closed ∨ env.readOutcome = ReadOutcome.readError ∨
            env.parseOutcome = ParseOutcome.malformed) :
    (c.Process now true writable env).1.mState = ConnectionState.Complete ∧
    (writable = true →
      (c.Process now true writable env).1.mResponse = errorResponse ∧
      (c.Process now true writable env).1.mWriteContent = errorResponse.serialize) ∧
    (writable = false →
      (c.Process now true writable env).1.mResponse = c.mResponse ∧
      (c.Process now true writable env).1.mWriteContent = c.mWriteContent) ∧
    (∀ now2 r2 w2 env2,
      ((c.Process now true writable env).1.Process now2 r2 w2 env2).1 =
        (c.Process now true writable env).1) := by
  have hnto : ¬ now - c.mTimeStamp > kReadTimeout := by omega
  have hmain : (c.Process now true writable env).1.mState = ConnectionState.Complete ∧
      (writable = true →
        (c.Process now true writable env).1.mResponse = errorResponse ∧
        (c.Process now true writable env).1.mWriteContent = errorResponse.serialize) ∧
      (writable = false →
        (c.Process now true writable env).1.mResponse = c.mResponse ∧
        (c.Process now true writable env).1.mWriteContent = c.mWriteContent) := by
    rcases herr with hro | hro | hpo
    · rcases writable with _ | _ <;>
        simp [Connection.Process, hs, Connection.ProcessWaitRead, hnto, hro,
          Connection.Disconnect]
    · rcases writable with _ | _ <;>
        simp [Connection.Process, hs, Connection.ProcessWaitRead, hnto, hro,
          Connection.Disconnect]
    · rcases hro2 : env.readOutcome with bytes | _ | _ <;>
        rcases writable with _ | _ <;>
          simp [Connection.Process, hs, Connection.ProcessWaitRead, hnto, hro2, hpo,
            Connection.Disconnect]
  exact ⟨hmain.1, hmain.2.1, hmain.2.2, fun now2 r2 w2 env2 => by
    rw [process_complete_noop _ now2 r2 w2 env2 hmain.1]⟩

/-- A concrete environment in which the peer has closed the socket. -/
def envClosed : ProcessEnv :=
  { envEx with readOutcome := ReadOutcome.closed }

/-- Closed instance of `readwait_error_terminal`: peer close on a live
`ReadWait` connection with the socket still writable. -/
theorem readwait_error_terminal_instance :
    (connReadLive.Process 10 true true envClosed).1.mState = ConnectionState.Complete ∧
    (connReadLive.Process 10 true true envClosed).1.mResponse = errorResponse :=
  ⟨(readwait_error_terminal connReadLive 10 true envClosed rfl (by decide)
      (Or.inl rfl)).1,
   ((readwait_error_terminal connReadLive 10 true envClosed rfl (by decide)
      (Or.inl rfl)).2.1 rfl).1⟩

/-- Draining a terminal connection flushes nothing and changes nothing. -/
theorem drainWrites_complete (c : Connection) (steps : List (Nat × Nat))
    (hs : c.mState = ConnectionState.Complete) :
    c.drainWrites steps = (c, []) := by
  induction steps with
  | nil => rfl
  | cons p rest ih =>
    obtain ⟨now, cap⟩ := p
    simp [Connection.drainWrites, Connection.Process, hs, ih]

/-- The drain invariant: starting in `WriteWait` with the cursor strictly
inside the serialized bytes, if no step exceeds the write budget and the
capacities cover the remaining bytes, the flushed chunks concatenate to
exactly the remaining bytes and the connection ends `Complete`. -/
theorem drainWrites_covers (steps : List (Nat × Nat)) (c : Connection)
    (hs : c.mState = ConnectionState.WriteWait)
    (hk : c.mResponse.mWriteCursor < c.mWriteContent.length)
    (hto : ∀ p ∈ steps, p.1 - c.mTimeStamp ≤ kWriteTimeout)
    (hcap : c.mWriteContent.length - c.mResponse.mWriteCursor ≤
      (steps.map Prod.snd).sum) :
    (c.drainWrites steps).2.flatten =
      c.mWriteContent.drop c.mResponse.mWriteCursor ∧
    (c.drainWrites steps).1.mState = ConnectionState.Complete := by
  induction steps generalizing c with
  | nil =>
    exfalso
    simp at hcap
    omega
  | cons p rest ih =>
    obtain ⟨now, cap⟩ := p
    have hto1 : now - c.mTimeStamp ≤ kWriteTimeout :=
      hto (now, cap) (List.mem_cons_self _ _)
    have hnto : ¬ now - c.mTimeStamp > kWriteTimeout := by omega
    have hchunk :
        ((c.mWriteContent.drop c.mResponse.mWriteCursor).take cap).length =
          min cap (c.mWriteContent.length - c.mResponse.mWriteCursor) := by
      simp [List.length_take]
    by_cases hfin : c.mWriteContent.length ≤
        c.mResponse.mWriteCursor +
          ((c.mWriteContent.drop c.mResponse.mWriteCursor).take cap).length
    · -- the remaining bytes fit in this step's capacity: one final chunk
      have hge : c.mWriteContent.length - c.mResponse.mWriteCursor ≤ cap := by
        rw [hchunk] at hfin
        omega
      have hall : (c.mWriteContent.drop c.mResponse.mWriteCursor).take cap =
          c.mWriteContent.drop c.mResponse.mWriteCursor := by
        apply List.take_of_length_le
        simp
        omega
      have hstep : c.Process now false true
          { readOutcome := ReadOutcome.data [], parseOutcome := ParseOutcome.incomplete,
            handlerOutcome := HandlerOutcome.pending 0,
            writeCapacity := cap, writeFails := false } =
          ({ c with mState := ConnectionState.Complete, mTimeStamp := now,
                    mResponse := { c.mResponse with mWriteCursor :=
                      c.mResponse.mWriteCursor +
                        ((c.mWriteContent.drop c.mResponse.mWriteCursor).take cap).length } },
           [IOEvent.writeOp ((c.mWriteContent.drop c.mResponse.mWriteCursor).take cap)]) := by
        simp [Connection.Process, hs, Connection.ProcessWaitWrite, hnto, Connection.Write,
          hfin]
        omega
      simp only [Connection.drainWrites, hstep]
      rw [drainWrites_complete _ rest rfl]
      simp [hall]
    · -- a strictly partial chunk of exactly `cap` bytes; recurse
      have hlt : cap < c.mWriteContent.length - c.mResponse.mWriteCursor := by
        rw [hchunk] at hfin
        omega
      have hchunklen : ((c.mWriteContent.drop c.mResponse.mWriteCursor).take cap).length
          = cap := by
        rw [hchunk]
        omega
      have hstep : c.Process now false true
          { readOutcome := ReadOutcome.data [], parseOutcome := ParseOutcome.incomplete,
            handlerOutcome := HandlerOutcome.pending 0,
            writeCapacity := cap, writeFails := false } =
          ({ c with mResponse := { c.mResponse with mWriteCursor :=
                      c.mResponse.mWriteCursor +
                        ((c.mWriteContent.drop c.mResponse.mWriteCursor).take cap).length } },
           [IOEvent.writeOp ((c.mWriteContent.drop c.mResponse.mWriteCursor).take cap)]) := by
        simp [Connection.Process, hs, Connection.ProcessWaitWrite, hnto, Connection.Write,
          hfin]
        omega
      simp only [Connection.drainWrites, hstep]
      have hrec := ih
        { c with mResponse := { c.mResponse with mWriteCursor :=
            c.mResponse.mWriteCursor +
              ((c.mWriteContent.drop c.mResponse.mWriteCursor).take cap).length } }
        hs
        (by simp [hchunklen]; omega)
        (by
          intro q hq
          exact hto q (List.mem_cons_of_mem _ hq))
        (by
          simp only [hchunklen]
          have hsum : c.mWriteContent.length - c.mResponse.mWriteCursor ≤
              cap + (rest.map Prod.snd).sum := by simpa using hcap
          simp
          omega)
      refine ⟨?_, by simpa using hrec.2⟩
      have hdd : ((c.mWriteContent.drop
          (c.mResponse.mWriteCursor +
            ((c.mWriteContent.drop c.mResponse.mWriteCursor).take cap).length))) =
          (c.mWriteContent.drop c.mResponse.mWriteCursor).drop cap := by
        rw [hchunklen, List.drop_drop, Nat.add_comm]
      have hflat := hrec.1
      simp only [hdd] at hflat
      simp only [List.filterMap_cons, List.filterMap_nil, List.cons_append, List.nil_append,
        List.flatten_cons]
      rw [hflat]
      exact List.take_append_drop cap (c.mWriteContent.drop c.mResponse.mWriteCursor)

/-- Claim C7: a response whose serialized bytes exceed the capacity of a
single write is delivered byte-for-byte and in order -- across repeated
`Process` calls in `WriteWait` (each write-ready and within the write
budget, with capacities that in total cover the response), the
concatenation of the flushed chunks equals the full serialized response,
with no byte duplicated, dropped or reordered, and the connection ends
`Complete`. -/
theorem response_delivered_in_order (c : Connection) (steps : List (Nat × Nat))
    (hs : c.mState = ConnectionState.WriteWait)
    (hcur : c.mResponse.mWriteCursor = 0)
    (hne : 0 < c.mWriteContent.length)
    (hto : ∀ p ∈ steps, p.1 - c.mTimeStamp ≤ kWriteTimeout)
    (hcap : c.mWriteContent.length ≤ (steps.map Prod.snd).sum) :
    (c.drainWrites steps).2.flatten = c.mWriteContent ∧
    (c.drainWrites steps).1.mState = ConnectionState.Complete := by
  have h := drainWrites_covers steps c hs (by omega) hto (by omega)
  rwa [hcur, List.drop_zero] at h

/-- A concrete connection with a five-byte staged response, cursor at 0. -/
def connWriteEx : Connection :=
  { connCbEx with mState := ConnectionState.WriteWait, mTimeStamp := 0,
                  mResponse := respEx, mWriteContent := [1, 2, 3, 4, 5] }

/-- Closed instance of `response_delivered_in_order`: five bytes flushed two
at a time over three write-ready `Process` calls. -/
theorem response_delivered_in_order_instance :
    (connWriteEx.drainWrites [(1, 2), (2, 2), (3, 2)]).2.flatten =
      connWriteEx.mWriteContent ∧
    (connWriteEx.drainWrites [(1, 2), (2, 2), (3, 2)]).1.mState =
      ConnectionState.Complete :=
  response_delivered_in_order connWriteEx [(1, 2), (2, 2), (3, 2)] rfl rfl
    (by decide) (by decide) (by decide)

/-- Claim C8: `UpdateFdSet` declares socket interest matching the state --
read-interest exactly in `ReadWait`, write-interest exactly in `WriteWait`,
neither in `CallbackWait` -- and in each waiting state lowers the loop's
wait ceiling to the connection's next timeout deadline. -/
theorem updatefdset_matches_state (c : Connection) (now : Nat) (m : MainloopContext) :
    (c.mState = ConnectionState.ReadWait →
      (c.UpdateFdSet now m).1.readFds = c.mFd :: m.readFds ∧
      (c.UpdateFdSet now m).1.writeFds = m.writeFds ∧
      (c.UpdateFdSet now m).1.timeout =
        min m.timeout (kReadTimeout - (now - c.mTimeStamp))) ∧
    (c.mState = ConnectionState.WriteWait →
      (c.UpdateFdSet now m).1.writeFds = c.mFd :: m.writeFds ∧
      (c.UpdateFdSet now m).1.readFds = m.readFds ∧
      (c.UpdateFdSet now m).1.timeout =
        min m.timeout (kWriteTimeout - (now - c.mTimeStamp))) ∧
    (c.mState = ConnectionState.CallbackWait →
      (c.UpdateFdSet now m).1.readFds = m.readFds ∧
      (c.UpdateFdSet now m).1.writeFds = m.writeFds ∧
      (c.UpdateFdSet now m).1.timeout =
        min m.timeout (kCallbackTimeout - (now - c.mTimeStamp))) := by
  refine ⟨?_, ?_, ?_⟩ <;> intro hs <;>
    simp [Connection.UpdateFdSet, Connection.UpdateReadFdSet, Connection.UpdateWriteFdSet,
      Connection.UpdateTimeout, Connection.nextDeadline, hs]

/-- Closed instance of `updatefdset_matches_state`: interest sets and wait
ceilings for concrete connections in the three waiting states. -/
theorem updatefdset_matches_state_instance :
    ((connReadLive.UpdateFdSet 10
        { readFds := [], writeFds := [], maxFd := 0, timeout := 5000 }).1.readFds =
      [connReadLive.mFd]) ∧
    ((connWriteEx.UpdateFdSet 10
        { readFds := [], writeFds := [], maxFd := 0, timeout := 5000 }).1.writeFds =
      [connWriteEx.mFd]) ∧
    ((connCbEx.UpdateFdSet 10
        { readFds := [], writeFds := [], maxFd := 0, timeout := 5000 }).1.readFds = [] ∧
     (connCbEx.UpdateFdSet 10
        { readFds := [], writeFds := [], maxFd := 0, timeout := 5000 }).1.timeout = 5000) :=
  ⟨((updatefdset_matches_state connReadLive 10
      { readFds := [], writeFds := [], maxFd := 0, timeout := 5000 }).1 rfl).1,
   ((updatefdset_matches_state connWriteEx 10
      { readFds := [], writeFds := [], maxFd := 0, timeout := 5000 }).2.1 rfl).1,
   ((updatefdset_matches_state connCbEx 10
      { readFds := [], writeFds := [], maxFd := 0, timeout := 5000 }).2.2 rfl).1,
   by
    rw [((updatefdset_matches_state connCbEx 10
      { readFds := [], writeFds := [], maxFd := 0, timeout := 5000 }).2.2 rfl).2.2]
    decide⟩

/-- Claim C9: `UpdateFdSet` and `IsComplete` are declared `const` in
connection.hpp (lines 88 and 97) and the class has no mutable members, so
both are pure observers: the connection they return is the one they were
called on, every field unchanged. -/
theorem const_observers_leave_connection_unchanged (c : Connection) (now : Nat)
    (m : MainloopContext) :
    (c.UpdateFdSet now m).2 = c ∧ (c.IsComplete).2 = c :=
  ⟨rfl, rfl⟩

/-- Every api state holds at most one pending handler per kind. -/
theorem pendingCount_le_one (api : ThreadApiDBus) (k : OpKind) :
    api.pendingCount k ≤ 1 := by
  rcases k <;> simp only [ThreadApiDBus.pendingCount] <;> split <;> omega

/-- Claim C10: for every sequence of operations on a `ThreadApiDBus`, at
most one pending result handler exists per asynchronous operation kind (one
scan, one attach, one factory-reset, one joiner handler), and starting a new
operation of a kind replaces the previously stored handler of that kind
rather than queuing beside it. -/
theorem one_pending_handler_per_kind (api : ThreadApiDBus) (ops : List ApiOp)
    (k : OpKind) (h1 h2 : Nat) :
    (api.applyOps ops).pendingCount k ≤ 1 ∧
    ((api.Scan h1).Scan h2).mScanHandler = some h2 ∧
    ((api.Attach h1).Attach h2).mAttachHandler = some h2 ∧
    ((api.FactoryReset h1).FactoryReset h2).mFactoryResetHandler = some h2 ∧
    ((api.JoinerStart h1).JoinerStart h2).mJoinerHandler = some h2 :=
  ⟨pendingCount_le_one (api.applyOps ops) k, rfl, rfl, rfl, rfl⟩
